import Mathlib

/-!
# slogrotate: calendar-bucket comparator and rotation trigger

A shallow embedding of `frequency.go` and `slogrotate.go`.

The Go standard library's `time.Time` is observed by the program only through
its calendar accessors (`Year`, `Month`, `Day`, `Hour`, `Minute`, `ISOWeek`).
All of them are functions of `t.abs()`, the zone-adjusted number of seconds
since January 1 of the absolute zero year, so an instant is modelled by that
number (an unsigned integer in Go, a natural number here) together with its
nanosecond part. The arithmetic follows the sources of package `time` as of
Go 1.21 and 1.22, the first releases that ship `log/slog`.
-/

namespace Slogrotate

/-! ## The `time` package: calendar arithmetic -/

def secondsPerMinute : Nat := 60
def secondsPerHour : Nat := 60 * secondsPerMinute
def secondsPerDay : Nat := 24 * secondsPerHour
def secondsPerWeek : Nat := 7 * secondsPerDay
def daysPer400Years : Nat := 365 * 400 + 97
def daysPer100Years : Nat := 365 * 100 + 24
def daysPer4Years : Nat := 365 * 4 + 1

/-- The year of the absolute epoch; `absoluteZeroYear - 1` is a multiple of 400. -/
def absoluteZeroYear : Int := -292277022399

/-- Go `time.Time`, reduced to what its calendar accessors read: `abs` is the
value of `t.abs()` (seconds since the absolute epoch, already shifted by the
zone offset of the instant's location) and `nsec` the nanosecond part. -/
structure Time where
  abs : Nat
  nsec : Nat
deriving DecidableEq, Repr

/-- Go `time.isLeap`. -/
def isLeap (year : Int) : Bool :=
  year % 4 == 0 && (year % 100 != 0 || year % 400 == 0)

/-- Go `time.daysBefore`: `daysBefore m` is the number of days in a non-leap
year before month `m + 1` (index 0 is January). -/
def daysBefore (m : Nat) : Nat :=
  match m with
  | 0 => 0
  | 1 => 31
  | 2 => 31 + 28
  | 3 => 31 + 28 + 31
  | 4 => 31 + 28 + 31 + 30
  | 5 => 31 + 28 + 31 + 30 + 31
  | 6 => 31 + 28 + 31 + 30 + 31 + 30
  | 7 => 31 + 28 + 31 + 30 + 31 + 30 + 31
  | 8 => 31 + 28 + 31 + 30 + 31 + 30 + 31 + 31
  | 9 => 31 + 28 + 31 + 30 + 31 + 30 + 31 + 31 + 30
  | 10 => 31 + 28 + 31 + 30 + 31 + 30 + 31 + 31 + 30 + 31
  | 11 => 31 + 28 + 31 + 30 + 31 + 30 + 31 + 31 + 30 + 31 + 30
  | _ => 31 + 28 + 31 + 30 + 31 + 30 + 31 + 31 + 30 + 31 + 30 + 31

/-- The first half of Go `time.absDate`: the number of whole years elapsed
since the absolute epoch and the zero-based day within the year. -/
def absYearDay (abs : Nat) : Nat × Nat :=
  -- Split into time and day.
  let d := abs / secondsPerDay
  -- Account for 400 year cycles.
  let n := d / daysPer400Years
  let y := 400 * n
  let d := d - daysPer400Years * n
  -- Cut off 100-year cycles.
  let n := d / daysPer100Years
  let n := n - n / 4
  let y := y + 100 * n
  let d := d - daysPer100Years * n
  -- Cut off 4-year cycles.
  let n := d / daysPer4Years
  let y := y + 4 * n
  let d := d - daysPer4Years * n
  -- Cut off years within a 4-year cycle.
  let n := d / 365
  let n := n - n / 4
  let y := y + n
  let d := d - 365 * n
  (y, d)

/-- The second half of Go `time.absDate`: month (January is 1) and day of the
month from the zero-based day of the year. -/
def monthDay (leap : Bool) (yday : Nat) : Nat × Nat :=
  if leap && yday == 31 + 29 - 1 then
    -- Leap day.
    (2, 29)
  else
    -- After leap day; pretend it wasn't there.
    let day := if leap && yday > 31 + 29 - 1 then yday - 1 else yday
    -- Estimate month on assumption that every month has 31 days.
    let month := day / 31
    let finish := daysBefore (month + 1)
    if day ≥ finish then
      (month + 1 + 1, day - finish + 1)
    else
      (month + 1, day - daysBefore month + 1)

/-- Go `time.absDate(abs, true)`: year, month, day of month and zero-based
day of the year. -/
def absDate (abs : Nat) : Int × Nat × Nat × Nat :=
  let yd := absYearDay abs
  let year : Int := (yd.1 : Int) + absoluteZeroYear
  let md := monthDay (isLeap year) yd.2
  (year, md.1, md.2, yd.2)

/-- Go `time.absWeekday`: Sunday is 0, Monday is 1; the absolute epoch is a
Monday. -/
def absWeekday (abs : Nat) : Nat :=
  let sec := (abs + 1 * secondsPerDay) % secondsPerWeek
  sec / secondsPerDay

def Time.Year (t : Time) : Int := (absDate t.abs).1
def Time.Month (t : Time) : Nat := (absDate t.abs).2.1
def Time.Day (t : Time) : Nat := (absDate t.abs).2.2.1
def Time.YearDay (t : Time) : Nat := (absDate t.abs).2.2.2 + 1
def Time.Hour (t : Time) : Nat := t.abs % secondsPerDay / secondsPerHour
def Time.Minute (t : Time) : Nat := t.abs % secondsPerHour / secondsPerMinute
def Time.Second (t : Time) : Nat := t.abs % secondsPerMinute
def Time.Weekday (t : Time) : Nat := absWeekday t.abs

/-- Go `Time.ISOWeek`: the ISO 8601 year and week number. The week of an
instant is the week of the Thursday of its Monday-based week. -/
def Time.ISOWeek (t : Time) : Int × Nat :=
  let abs := t.abs
  let d : Int := 4 - (absWeekday abs : Int)
  -- handle Sunday
  let d : Int := if d = 4 then -3 else d
  -- find the Thursday of the calendar week
  let abs := ((abs : Int) + d * (secondsPerDay : Int)).toNat
  let yd := absYearDay abs
  ((yd.1 : Int) + absoluteZeroYear, yd.2 / 7 + 1)

/-- Go `time.daysSinceEpoch`: days from the absolute epoch to January 1 of
`year`. -/
def daysSinceEpoch (year : Int) : Nat :=
  let y := (year - absoluteZeroYear).toNat
  -- Add in days from 400-year cycles.
  let n := y / 400
  let y := y - 400 * n
  let d := daysPer400Years * n
  -- Add in 100-year cycles.
  let n := y / 100
  let y := y - 100 * n
  let d := d + daysPer100Years * n
  -- Add in 4-year cycles.
  let n := y / 4
  let y := y - 4 * n
  let d := d + daysPer4Years * n
  -- Add in non-leap years.
  d + 365 * y

/-- Go `time.Date` on already normalised fields (month in 1..12, day within
the month, hour, minute and second in range), in a location whose offset is
already accounted for. -/
def Date (year : Int) (month day hour min sec : Nat) : Time :=
  let d := daysSinceEpoch year
  let d := d + daysBefore (month - 1)
  let d := if isLeap year && month ≥ 3 then d + 1 else d
  let d := d + (day - 1)
  let abs := d * secondsPerDay
  let abs := abs + (hour * secondsPerHour + min * secondsPerMinute + sec)
  { abs := abs, nsec := 0 }

/-- Days from the absolute epoch to the first day of the year that starts `y`
whole years after it (the epoch year is 1 modulo 400, so the leap years are
those with `y + 1` divisible by 4 and not by 100, or by 400). -/
def daysBeforeYear (y : Nat) : Nat := 365 * y + y / 4 - y / 100 + y / 400

/-- Zero-based day of the year of a month and day of month, as Go `time.Date`
adds them up. -/
def ydayOf (leap : Bool) (month day : Nat) : Nat :=
  let d := daysBefore (month - 1)
  let d := if leap && month ≥ 3 then d + 1 else d
  d + (day - 1)

/-- Number of days of the year that starts `y` whole years after the absolute
epoch. -/
def yearLength (y : Nat) : Nat :=
  if isLeap ((y : Int) + absoluteZeroYear) then 366 else 365

/-! ## frequency.go -/

/-- Go `type Frequency int`. -/
structure Frequency where
  val : Int
deriving DecidableEq, Repr

def FrequencyNone : Frequency := ⟨0⟩
def FrequencyYearly : Frequency := ⟨1⟩
def FrequencyMonthly : Frequency := ⟨2⟩
def FrequencyWeekly : Frequency := ⟨3⟩
def FrequencyDaily : Frequency := ⟨4⟩
def FrequencyHourly : Frequency := ⟨5⟩
def FrequencyMinutely : Frequency := ⟨6⟩

/-- Go `(*Frequency).IsSame`. -/
def Frequency.IsSame (f : Frequency) (lastTime currentTime : Time) : Bool :=
  let freq := f
  if decide (freq.val ≥ FrequencyYearly.val) && lastTime.Year != currentTime.Year then
    false
  else if decide (freq.val ≥ FrequencyMonthly.val) && lastTime.Month != currentTime.Month then
    false
  else if decide (freq.val ≥ FrequencyWeekly.val) &&
      (let lastWeek := lastTime.ISOWeek.2
       let currentWeek := currentTime.ISOWeek.2
       lastWeek != currentWeek) then
    false
  else if decide (freq.val ≥ FrequencyDaily.val) && lastTime.Day != currentTime.Day then
    false
  else if decide (freq.val ≥ FrequencyHourly.val) && lastTime.Hour != currentTime.Hour then
    false
  else if decide (freq.val ≥ FrequencyMinutely.val) && lastTime.Minute != currentTime.Minute then
    false
  else
    true

/-- Go `error` values produced or passed on by the program. -/
inductive GoError where
  /-- `fmt.Errorf("invalid frequency: %d", f)` of `MarshalJSON`. -/
  | invalidFrequencyValue
  /-- `fmt.Errorf("invalid frequency: %s", str)` of `UnmarshalJSON`. -/
  | invalidFrequencyToken (str : String)
  /-- The error of `json.Unmarshal` into a string: a `*json.SyntaxError` or a
  `*json.UnmarshalTypeError`. -/
  | jsonUnmarshal
  /-- An error of a collaborator (rotation backend, formatter). -/
  | external (msg : String)
deriving DecidableEq, Repr

/-- Go `frequencyToString`, a map from `Frequency` to its token. -/
def frequencyToString (f : Frequency) : Option String :=
  if f = FrequencyNone then some "none"
  else if f = FrequencyYearly then some "yearly"
  else if f = FrequencyMonthly then some "monthly"
  else if f = FrequencyWeekly then some "weekly"
  else if f = FrequencyDaily then some "daily"
  else if f = FrequencyHourly then some "hourly"
  else if f = FrequencyMinutely then some "minutely"
  else none

/-- Go `stringToFrequency`, a map from token to `Frequency`. -/
def stringToFrequency (str : String) : Option Frequency :=
  if str = "none" then some FrequencyNone
  else if str = "yearly" then some FrequencyYearly
  else if str = "monthly" then some FrequencyMonthly
  else if str = "weekly" then some FrequencyWeekly
  else if str = "daily" then some FrequencyDaily
  else if str = "hourly" then some FrequencyHourly
  else if str = "minutely" then some FrequencyMinutely
  else none

/-! ### The `encoding/json` package, for strings

JSON text is modelled as a list of Unicode characters (Go works on the UTF-8
bytes; invalid UTF-8 is outside the model). -/

/-- The double quote character. -/
def quoteChar : Char := Char.ofNat 34

/-- The backslash character. -/
def backslashChar : Char := Char.ofNat 92

/-- Lower-case hexadecimal digit, Go `hex[n]`. -/
def hexChar (n : Nat) : Char :=
  if n < 10 then Char.ofNat (48 + n) else Char.ofNat (87 + n)

/-- Go `htmlSafeSet`: ASCII characters that `json.Marshal` writes unescaped. -/
def htmlSafe (c : Char) : Bool :=
  decide (32 ≤ c.toNat) && c != quoteChar && c != backslashChar &&
    c != '&' && c != '<' && c != '>'

/-- One character of Go `appendString` with HTML escaping, as `json.Marshal`
uses it. -/
def appendChar (c : Char) : List Char :=
  if c.toNat < 128 then
    if htmlSafe c then [c]
    else if c = backslashChar ∨ c = quoteChar then [backslashChar, c]
    else if c.toNat = 8 then [backslashChar, 'b']
    else if c.toNat = 12 then [backslashChar, 'f']
    else if c.toNat = 10 then [backslashChar, 'n']
    else if c.toNat = 13 then [backslashChar, 'r']
    else if c.toNat = 9 then [backslashChar, 't']
    else [backslashChar, 'u', '0', '0', hexChar (c.toNat / 16), hexChar (c.toNat % 16)]
  else if c.toNat = 8232 ∨ c.toNat = 8233 then
    [backslashChar, 'u', '2', '0', '2', hexChar (c.toNat % 16)]
  else [c]

/-- Go `json.Marshal` of a string: never fails. -/
def jsonMarshalString (s : String) : List Char :=
  quoteChar :: (s.data.flatMap appendChar ++ [quoteChar])

/-- JSON insignificant whitespace. -/
def isJSONSpace (c : Char) : Bool :=
  c == ' ' || c == Char.ofNat 9 || c == Char.ofNat 13 || c == Char.ofNat 10

/-- Value of a hexadecimal digit. -/
def hexValue (c : Char) : Option Nat :=
  if 48 ≤ c.toNat ∧ c.toNat ≤ 57 then some (c.toNat - 48)
  else if 97 ≤ c.toNat ∧ c.toNat ≤ 102 then some (c.toNat - 97 + 10)
  else if 65 ≤ c.toNat ∧ c.toNat ≤ 70 then some (c.toNat - 65 + 10)
  else none

/-- The character of a one-letter escape, none for an invalid escape. -/
def simpleEscape (c : Char) : Option Char :=
  if c = quoteChar then some quoteChar
  else if c = backslashChar then some backslashChar
  else if c = '/' then some '/'
  else if c = 'b' then some (Char.ofNat 8)
  else if c = 'f' then some (Char.ofNat 12)
  else if c = 'n' then some (Char.ofNat 10)
  else if c = 'r' then some (Char.ofNat 13)
  else if c = 't' then some (Char.ofNat 9)
  else none

/-- A piece of a scanned string literal: a literal character or the UTF-16
code unit of a `\uXXXX` escape. -/
inductive StrItem where
  | char (c : Char)
  | unit (u : Nat)
deriving DecidableEq, Repr

/-- Scan the body of a JSON string literal after its opening quote, up to and
including the closing quote; returns the pieces and the rest of the input,
none on a syntax error. -/
def scanString : List Char → Option (List StrItem × List Char)
  | [] => none
  | c :: rest =>
    if c = quoteChar then some ([], rest)
    else if c = backslashChar then
      match rest with
      | [] => none
      | e :: rest1 =>
        if e = 'u' then
          match rest1 with
          | h1 :: h2 :: h3 :: h4 :: rest2 =>
            match hexValue h1, hexValue h2, hexValue h3, hexValue h4 with
            | some a, some b, some c, some d =>
              (scanString rest2).map
                (fun p => (StrItem.unit (((a * 16 + b) * 16 + c) * 16 + d) :: p.1, p.2))
            | _, _, _, _ => none
          | _ => none
        else
          match simpleEscape e with
          | some ch => (scanString rest1).map (fun p => (StrItem.char ch :: p.1, p.2))
          | none => none
    else if c.toNat < 32 then none
    else (scanString rest).map (fun p => (StrItem.char c :: p.1, p.2))

/-- Go `unquote`: turn the scanned pieces into characters; a surrogate pair of
escapes is combined and a lone surrogate becomes U+FFFD. -/
def unquoteItems : List StrItem → List Char
  | [] => []
  | StrItem.char c :: rest => c :: unquoteItems rest
  | StrItem.unit u :: StrItem.unit v :: rest =>
    if 55296 ≤ u ∧ u < 57344 then
      if u < 56320 ∧ 56320 ≤ v ∧ v < 57344 then
        Char.ofNat ((u - 55296) * 1024 + (v - 56320) + 65536) :: unquoteItems rest
      else Char.ofNat 65533 :: unquoteItems (StrItem.unit v :: rest)
    else Char.ofNat u :: unquoteItems (StrItem.unit v :: rest)
  | StrItem.unit u :: rest =>
    if 55296 ≤ u ∧ u < 57344 then Char.ofNat 65533 :: unquoteItems rest
    else Char.ofNat u :: unquoteItems rest

/-- Go `json.Unmarshal(data, &str)` for a string target: `some s` when the
input is one JSON string (surrounded by optional whitespace) that decodes to
`s`, `none` when it is the JSON `null` (which leaves the target untouched),
an error for every other input. -/
def jsonUnmarshalString (data : List Char) : Except GoError (Option String) :=
  let body := (data.dropWhile isJSONSpace)
  match body with
  | [] => .error .jsonUnmarshal
  | c :: rest =>
    if c = quoteChar then
      match scanString rest with
      | some (items, tail) =>
        if tail.all isJSONSpace then .ok (some (String.mk (unquoteItems items)))
        else .error .jsonUnmarshal
      | none => .error .jsonUnmarshal
    else if c = 'n' then
      match rest with
      | 'u' :: 'l' :: 'l' :: tail =>
        if tail.all isJSONSpace then .ok none else .error .jsonUnmarshal
      | _ => .error .jsonUnmarshal
    else .error .jsonUnmarshal

/-- Go `(*Frequency).MarshalJSON`. -/
def Frequency.MarshalJSON (f : Frequency) : Except GoError (List Char) :=
  match frequencyToString f with
  | none => .error .invalidFrequencyValue
  | some str => .ok (jsonMarshalString str)

/-- Go `(*Frequency).UnmarshalJSON`: returns the value of `*f` after the call
and the error returned. -/
def Frequency.UnmarshalJSON (f : Frequency) (data : List Char) : Frequency × Option GoError :=
  let str : String := ""
  match jsonUnmarshalString data with
  | .error err => (f, some err)
  | .ok decoded =>
    let str := match decoded with
      | some s => s
      | none => str
    match stringToFrequency str with
    | none => (f, some (.invalidFrequencyToken str))
    | some freq => (freq, none)

/-- The seven canonical tokens. -/
def canonicalTokens : List String :=
  ["none", "yearly", "monthly", "weekly", "daily", "hourly", "minutely"]

/-! ## slogrotate.go

The handler is a sequential state machine: `Handle` takes the handler and the
state of the outside world and returns both after the call. The collaborators
(file system, rotation backend, formatter) are oracles of the world whose
answers may depend on everything that happened before, and every call to one
of them is appended to the world's trace. The mutex is not part of the state:
in a sequential execution `Lock` and `Unlock` always succeed at once. -/

/-- Go `slog.Attr`, reduced to a key and a printed value. -/
structure Attr where
  Key : String
  Value : String
deriving DecidableEq, Repr

/-- Go `slog.Record`, reduced to its timestamp and message. -/
structure Record where
  Time : Time
  Message : String
deriving DecidableEq, Repr

/-- A scoping operation applied to a formatter. -/
inductive FormatterScope where
  | attrs (attr : List Attr)
  | group (name : String)
deriving DecidableEq, Repr

/-- The `slog.Handler` that formats records: the handler returned by the
builder, identified by the scoping operations applied to it so far. -/
structure Formatter where
  scopes : List FormatterScope
deriving DecidableEq, Repr

def Formatter.WithAttrs (f : Formatter) (attr : List Attr) : Formatter :=
  { scopes := f.scopes ++ [FormatterScope.attrs attr] }

def Formatter.WithGroup (f : Formatter) (name : String) : Formatter :=
  { scopes := f.scopes ++ [FormatterScope.group name] }

/-- Go `lumberjack.Logger`, the rotation backend, as configured. -/
structure Logger where
  Filename : String
  MaxSize : Int
  MaxAge : Int
  MaxBackups : Int
  LocalTime : Bool
  Compress : Bool
deriving DecidableEq, Repr

/-- Go `HandlerOptions`; the `slog.HandlerOptions` and the builder only
determine how the formatter prints and are not modelled. -/
structure HandlerOptions where
  Filename : String
  MaxSize : Int
  MaxAge : Int
  MaxBackups : Int
  Frequency : Frequency
  LocalTime : Bool
  Compress : Bool
deriving DecidableEq, Repr

/-- A call to a collaborator. -/
inductive Event where
  /-- `os.Stat(filename)`. -/
  | stat (filename : String)
  /-- `logger.Rotate()`. -/
  | rotate (logger : Logger)
  /-- `formatter.Handle(ctx, record)`. -/
  | handle (formatter : Formatter) (record : Record)
deriving DecidableEq, Repr

/-- The world outside the handler. `statModTime`, `rotateResult` and
`handleResult` answer a call given the trace of the calls made before it;
`defaultFilename` is `<tempdir>/<processname>-current.log`. -/
structure World where
  defaultFilename : String
  statModTime : List Event → String → Option Time
  rotateResult : List Event → Logger → Option GoError
  handleResult : List Event → Formatter → Record → Option GoError
  trace : List Event

/-- Go `os.Stat(filename)` followed by `stat.ModTime()`: the modification time
when the file exists (`err == nil`). -/
def World.Stat (w : World) (filename : String) : World × Option Time :=
  ({ w with trace := w.trace ++ [Event.stat filename] }, w.statModTime w.trace filename)

/-- Go `logger.Rotate()`. -/
def World.Rotate (w : World) (logger : Logger) : World × Option GoError :=
  ({ w with trace := w.trace ++ [Event.rotate logger] }, w.rotateResult w.trace logger)

/-- Go `formatter.Handle(ctx, record)`. -/
def World.FormatterHandle (w : World) (formatter : Formatter) (record : Record) :
    World × Option GoError :=
  ({ w with trace := w.trace ++ [Event.handle formatter record] },
    w.handleResult w.trace formatter record)

/-- Go `Handler`; `once` is true when the `sync.Once` has already run. -/
structure Handler where
  formatter : Formatter
  logger : Logger
  opts : HandlerOptions
  once : Bool
  lastTime : Time
deriving DecidableEq, Repr

/-- Go `internalToAbsolute`: the value of `abs()` for the zero `time.Time`,
January 1 of year 1, 00:00:00 UTC. -/
def internalToAbsolute : Nat := 9223371966579724800

/-- The zero value of `time.Time`. -/
def zeroTime : Time := { abs := internalToAbsolute, nsec := 0 }

/-- Go `(*HandlerOptions).GetFilename`. -/
def HandlerOptions.GetFilename (o : HandlerOptions) (w : World) : String :=
  if o.Filename ≠ "" then o.Filename else w.defaultFilename

/-- Go `NewHandler`; `none` is the nil pointer. -/
def NewHandler (opts : Option HandlerOptions) (w : World) : Handler :=
  let opts : HandlerOptions := match opts with
    | some o => o
    | none => { Filename := "", MaxSize := 0, MaxAge := 0, MaxBackups := 0,
                Frequency := FrequencyNone, LocalTime := false, Compress := false }
  let logger : Logger :=
    { Filename := opts.GetFilename w, MaxSize := opts.MaxSize, MaxAge := opts.MaxAge,
      MaxBackups := opts.MaxBackups, LocalTime := opts.LocalTime, Compress := opts.Compress }
  { formatter := { scopes := [] }, logger := logger, opts := opts, once := false,
    lastTime := zeroTime }

/-- Go `(*Handler).clone`: the new handler has a fresh `sync.Once`. -/
def Handler.clone (h : Handler) : Handler :=
  { formatter := h.formatter, logger := h.logger, opts := h.opts, once := false,
    lastTime := h.lastTime }

/-- Go `(*Handler).initTime`. -/
def Handler.initTime (h : Handler) (t : Time) (w : World) : Handler × World :=
  let filename := h.opts.GetFilename w
  let r := w.Stat filename
  match r.2 with
  | some modTime => ({ h with lastTime := modTime }, r.1)
  | none => ({ h with lastTime := t }, r.1)

/-- What a call of `Handle` leaves behind: the handler, the world and the
returned error. -/
structure HandleResult where
  handler : Handler
  world : World
  err : Option GoError

/-- Go `(*Handler).Handle`. -/
def Handler.Handle (h : Handler) (record : Record) (w : World) : HandleResult :=
  let forward (h : Handler) (w : World) : HandleResult :=
    let r := w.FormatterHandle h.formatter record
    { handler := h, world := r.1, err := r.2 }
  if h.opts.Frequency ≠ FrequencyNone then
    -- h.once.Do(func() { h.initTime(record.Time) })
    let hw : Handler × World :=
      if h.once then (h, w)
      else
        let r := h.initTime record.Time w
        ({ r.1 with once := true }, r.2)
    let h := hw.1
    let w := hw.2
    if !h.opts.Frequency.IsSame h.lastTime record.Time then
      -- h.mu.Lock(); defer h.mu.Unlock()
      if !h.opts.Frequency.IsSame h.lastTime record.Time then
        let h := { h with lastTime := record.Time }
        let r := w.Rotate h.logger
        { handler := h, world := r.1, err := r.2 }
      else forward h w
    else forward h w
  else forward h w

/-- Go `(*Handler).WithAttrs`. -/
def Handler.WithAttrs (h : Handler) (attr : List Attr) : Handler :=
  let nh := h.clone
  { nh with formatter := h.formatter.WithAttrs attr }

/-- Go `(*Handler).WithGroup`. -/
def Handler.WithGroup (h : Handler) (name : String) : Handler :=
  let nh := h.clone
  { nh with formatter := h.formatter.WithGroup name }

/-- Options of a handler that rotates daily and writes to `app.log`. -/
def dailyOptions : HandlerOptions :=
  { Filename := "app.log", MaxSize := 0, MaxAge := 0, MaxBackups := 0,
    Frequency := FrequencyDaily, LocalTime := false, Compress := false }

/-- A world in which the log file exists and was last modified at the given
time, and in which rotation and formatting succeed. -/
def worldWithFile (modTime : Time) : World :=
  { defaultFilename := "/tmp/app-current.log",
    statModTime := fun _ _ => some modTime,
    rotateResult := fun _ _ => none,
    handleResult := fun _ _ _ => none,
    trace := [] }

/-- A run of `Handle` calls on one handler, one after another: the handler
and the world after the last call, and the error returned by each call. -/
def Handler.HandleAll (h : Handler) (records : List Record) (w : World) :
    Handler × World × List (Option GoError) :=
  match records with
  | [] => (h, w, [])
  | record :: rest =>
    let res := h.Handle record w
    let out := Handler.HandleAll res.handler rest res.world
    (out.1, out.2.1, res.err :: out.2.2)

/-- The calls to collaborators made between two states of the world. -/
def newEvents (before after : World) : List Event :=
  after.trace.drop before.trace.length

def Event.isStat (e : Event) : Bool :=
  match e with
  | Event.stat _ => true
  | _ => false

def Event.isRotate (e : Event) : Bool :=
  match e with
  | Event.rotate _ => true
  | _ => false

/-- A handler built from `dailyOptions` that has already run its seeding and
holds the given `lastTime`. -/
def seededDailyHandler (lastTime : Time) : Handler :=
  { formatter := { scopes := [] },
    logger := { Filename := "app.log", MaxSize := 0, MaxAge := 0, MaxBackups := 0,
                LocalTime := false, Compress := false },
    opts := dailyOptions, once := true, lastTime := lastTime }

/-- A world in which the log file does not exist, and in which rotation and
formatting succeed. -/
def worldWithoutFile : World :=
  { defaultFilename := "/tmp/app-current.log",
    statModTime := fun _ _ => none,
    rotateResult := fun _ _ => none,
    handleResult := fun _ _ _ => none,
    trace := [] }

/-- A world in which every rotation fails with a permission error. -/
def worldRotateFails : World :=
  { defaultFilename := "/tmp/app-current.log",
    statModTime := fun _ _ => none,
    rotateResult := fun _ _ => some (GoError.external "permission denied"),
    handleResult := fun _ _ _ => none,
    trace := [] }

/-- A world in which the log file exists and was last modified at the given
time, and in which every rotation fails with a permission error. -/
def worldWithFileRotateFails (modTime : Time) : World :=
  { defaultFilename := "/tmp/app-current.log",
    statModTime := fun _ _ => some modTime,
    rotateResult := fun _ _ => some (GoError.external "permission denied"),
    handleResult := fun _ _ _ => none,
    trace := [] }

/-- The calendar fields that a granularity requires to agree, in the words of
the specification: year from Yearly on, month from Monthly on, ISO week number
from Weekly on, day of month from Daily on, hour from Hourly on and minute at
Minutely. -/
def requiredFieldsAgree (G : Frequency) (a b : Time) : Prop :=
  (FrequencyYearly.val ≤ G.val → a.Year = b.Year) ∧
  (FrequencyMonthly.val ≤ G.val → a.Month = b.Month) ∧
  (FrequencyWeekly.val ≤ G.val → a.ISOWeek.2 = b.ISOWeek.2) ∧
  (FrequencyDaily.val ≤ G.val → a.Day = b.Day) ∧
  (FrequencyHourly.val ≤ G.val → a.Hour = b.Hour) ∧
  (FrequencyMinutely.val ≤ G.val → a.Minute = b.Minute)

instance (G : Frequency) (a b : Time) : Decidable (requiredFieldsAgree G a b) := by
  unfold requiredFieldsAgree
  exact inferInstance

/-! ## Properties of the comparator -/

/-! ### Calendar lemmas -/

theorem absYearDay_days (abs : Nat) :
    abs / secondsPerDay = daysBeforeYear (absYearDay abs).1 + (absYearDay abs).2 ∧
      (absYearDay abs).2 < 366 := by
  have c400 : daysPer400Years = 146097 := rfl
  have c100 : daysPer100Years = 36524 := rfl
  have c4 : daysPer4Years = 1461 := rfl
  simp only [absYearDay, daysBeforeYear, c400, c100, c4]
  generalize abs / secondsPerDay = D
  obtain ⟨q, r, hr, rfl⟩ : ∃ q r, r < 146097 ∧ D = 146097 * q + r :=
    ⟨D / 146097, D % 146097, Nat.mod_lt _ (by norm_num), (Nat.div_add_mod D 146097).symm⟩
  have e1 : (146097 * q + r) / 146097 = q := by omega
  have e2 : 146097 * q + r - 146097 * q = r := by omega
  simp only [e1, e2]
  have hn4 : r / 36524 ≤ 4 := by omega
  generalize hn : r / 36524 = n at *
  generalize hn' : n - n / 4 = n' at *
  have hr2 : r - 36524 * n' < 36525 := by omega
  generalize hs : r - 36524 * n' = s at *
  obtain ⟨b, t, ht, rfl⟩ : ∃ b t, t < 1461 ∧ s = 1461 * b + t :=
    ⟨s / 1461, s % 1461, Nat.mod_lt _ (by norm_num), (Nat.div_add_mod s 1461).symm⟩
  have e3 : (1461 * b + t) / 1461 = b := by omega
  have e4 : 1461 * b + t - 1461 * b = t := by omega
  simp only [e3, e4]
  have hb : b ≤ 24 := by omega
  have hf4 : t / 365 ≤ 4 := by omega
  generalize hf : t / 365 = f at *
  generalize hf' : f - f / 4 = f' at *
  have hn'3 : n' ≤ 3 := by omega
  have hf'3 : f' ≤ 3 := by omega
  have d4 : (400 * q + 100 * n' + 4 * b + f') / 4 = 100 * q + 25 * n' + b := by omega
  have d100 : (400 * q + 100 * n' + 4 * b + f') / 100 = 4 * q + n' := by omega
  have d400 : (400 * q + 100 * n' + 4 * b + f') / 400 = q := by omega
  simp only [d4, d100, d400]
  have k1 : 36524 * n' ≤ r := by omega
  have k2 : 365 * f' ≤ t := by omega
  have k3 : t - 365 * f' < 366 := by omega
  clear hn hn' hf hf' hn4 hf4 e1 e2 e3 e4 d4 d100 d400
  omega

set_option maxRecDepth 100000 in
theorem monthDay_ydayOf :
    ∀ leap : Bool, ∀ yday : Nat, yday < 366 →
      ydayOf leap (monthDay leap yday).1 (monthDay leap yday).2 = yday := by
  decide

/-- The calendar date determines the day number: two instants with the same
year, month and day of month lie on the same day since the epoch. -/
theorem same_date_same_day (a b : Time) (hy : a.Year = b.Year) (hm : a.Month = b.Month)
    (hd : a.Day = b.Day) : a.abs / secondsPerDay = b.abs / secondsPerDay := by
  simp only [Time.Year, Time.Month, Time.Day, absDate] at hy hm hd
  have y_eq : (absYearDay a.abs).1 = (absYearDay b.abs).1 := by omega
  rw [y_eq] at hm hd
  obtain ⟨ha, ha'⟩ := absYearDay_days a.abs
  obtain ⟨hb, hb'⟩ := absYearDay_days b.abs
  have ea := monthDay_ydayOf (isLeap (↑(absYearDay b.abs).1 + absoluteZeroYear)) _ ha'
  have eb := monthDay_ydayOf (isLeap (↑(absYearDay b.abs).1 + absoluteZeroYear)) _ hb'
  rw [hm, hd, eb] at ea
  rw [ha, hb, y_eq, ea]

theorem absYearDay_congr {x y : Nat} (h : x / secondsPerDay = y / secondsPerDay) :
    absYearDay x = absYearDay y := by
  unfold absYearDay
  simp only [h]

theorem absWeekday_eq (abs : Nat) : absWeekday abs = (abs / secondsPerDay + 1) % 7 := by
  have c1 : secondsPerDay = 86400 := rfl
  have c2 : secondsPerWeek = 604800 := rfl
  simp only [absWeekday, c1, c2]
  omega

/-- The ISO week of an instant depends only on its day number. -/
theorem ISOWeek_congr (a b : Time) (h : a.abs / secondsPerDay = b.abs / secondsPerDay) :
    a.ISOWeek = b.ISOWeek := by
  have hw : absWeekday a.abs = absWeekday b.abs := by
    rw [absWeekday_eq, absWeekday_eq, h]
  have hlt : absWeekday b.abs < 7 := by
    rw [absWeekday_eq]
    exact Nat.mod_lt _ (by norm_num)
  have c1 : secondsPerDay = 86400 := rfl
  have key : ∀ d : Int, -3 ≤ d → d ≤ 3 →
      ((a.abs : Int) + d * (secondsPerDay : Int)).toNat / secondsPerDay =
        ((b.abs : Int) + d * (secondsPerDay : Int)).toNat / secondsPerDay := by
    intro d h1 h2
    rw [c1] at h ⊢
    omega
  unfold Time.ISOWeek
  simp only [hw]
  have hcong := absYearDay_congr (key (if (4 - (absWeekday b.abs : Int)) = 4 then -3
    else 4 - (absWeekday b.abs : Int)) (by split_ifs <;> omega) (by split_ifs <;> omega))
  rw [hcong]

theorem isLeap_index (y : Nat) :
    isLeap ((y : Int) + absoluteZeroYear) =
      decide ((y + 1) % 4 = 0 ∧ ((y + 1) % 100 ≠ 0 ∨ (y + 1) % 400 = 0)) := by
  have hz : absoluteZeroYear = 1 + 400 * (-730692556) := by
    unfold absoluteZeroYear
    norm_num
  rw [hz]
  generalize (-730692556 : Int) = k
  have h4 : ((y : Int) + (1 + 400 * k)) % 4 = 0 ↔ (y + 1) % 4 = 0 := by omega
  have h100 : ((y : Int) + (1 + 400 * k)) % 100 = 0 ↔ (y + 1) % 100 = 0 := by omega
  have h400 : ((y : Int) + (1 + 400 * k)) % 400 = 0 ↔ (y + 1) % 400 = 0 := by omega
  unfold isLeap
  rw [Bool.eq_iff_iff]
  simp only [Bool.and_eq_true, Bool.or_eq_true, beq_iff_eq, bne_iff_ne, ne_eq,
    decide_eq_true_eq, h4, h100, h400]

theorem yearLength_eq (y : Nat) :
    yearLength y =
      if (y + 1) % 4 = 0 ∧ ((y + 1) % 100 ≠ 0 ∨ (y + 1) % 400 = 0) then 366 else 365 := by
  unfold yearLength
  rw [isLeap_index]
  simp only [decide_eq_true_eq]

theorem daysBeforeYear_succ (y : Nat) :
    daysBeforeYear (y + 1) = daysBeforeYear y + yearLength y := by
  rw [yearLength_eq]
  unfold daysBeforeYear
  have e4 := Nat.succ_div y 4
  have e100 := Nat.succ_div y 100
  have e400 := Nat.succ_div y 400
  simp only [Nat.dvd_iff_mod_eq_zero] at e4 e100 e400
  have hle : y / 100 ≤ y / 4 := Nat.div_le_div_left (by norm_num) (by norm_num)
  rw [e4, e100, e400]
  generalize y / 4 = a at *
  generalize y / 100 = c at *
  generalize y / 400 = e at *
  split_ifs <;> omega

theorem absYearDay_lt (abs : Nat) :
    (absYearDay abs).2 < yearLength (absYearDay abs).1 := by
  have c400 : daysPer400Years = 146097 := rfl
  have c100 : daysPer100Years = 36524 := rfl
  have c4 : daysPer4Years = 1461 := rfl
  rw [yearLength_eq]
  simp only [absYearDay, c400, c100, c4]
  generalize abs / secondsPerDay = D
  obtain ⟨q, r, hr, rfl⟩ : ∃ q r, r < 146097 ∧ D = 146097 * q + r :=
    ⟨D / 146097, D % 146097, Nat.mod_lt _ (by norm_num), (Nat.div_add_mod D 146097).symm⟩
  have e1 : (146097 * q + r) / 146097 = q := by omega
  have e2 : 146097 * q + r - 146097 * q = r := by omega
  simp only [e1, e2]
  have hn4 : r / 36524 ≤ 4 := by omega
  generalize hn : r / 36524 = n at *
  generalize hn' : n - n / 4 = n' at *
  have hr2 : r - 36524 * n' < 36525 := by omega
  have hr3 : r - 36524 * n' = 36524 → n' = 3 := by omega
  generalize hs : r - 36524 * n' = s at *
  obtain ⟨b, t, ht, rfl⟩ : ∃ b t, t < 1461 ∧ s = 1461 * b + t :=
    ⟨s / 1461, s % 1461, Nat.mod_lt _ (by norm_num), (Nat.div_add_mod s 1461).symm⟩
  have e3 : (1461 * b + t) / 1461 = b := by omega
  have e4 : 1461 * b + t - 1461 * b = t := by omega
  simp only [e3, e4]
  have hb : b ≤ 24 := by omega
  have hf4 : t / 365 ≤ 4 := by omega
  generalize hf : t / 365 = f at *
  generalize hf' : f - f / 4 = f' at *
  have hn'3 : n' ≤ 3 := by omega
  have hf'3 : f' ≤ 3 := by omega
  have k2 : 365 * f' ≤ t := by omega
  have k3 : t - 365 * f' < 366 := by omega
  have k4 : t - 365 * f' = 365 → f' = 3 := by omega
  have k5 : t - 365 * f' = 365 → b = 24 → n' = 3 := by omega
  clear hn hn' hf hf' hn4 hf4 e1 e2 e3 e4 hs hr hr2 hr3
  have m4 : (400 * q + 100 * n' + 4 * b + f' + 1) % 4 = (f' + 1) % 4 := by omega
  have m100 : (400 * q + 100 * n' + 4 * b + f' + 1) % 100 = (4 * b + f' + 1) % 100 := by omega
  have m400 : (400 * q + 100 * n' + 4 * b + f' + 1) % 400 =
      (100 * n' + 4 * b + f' + 1) % 400 := by omega
  rw [m4, m100, m400]
  split_ifs with hleap
  · omega
  · by_contra hcon
    have h365 : t - 365 * f' = 365 := by omega
    have hf3 := k4 h365
    apply hleap
    subst hf3
    refine ⟨by norm_num, ?_⟩
    by_cases hb24 : b = 24
    · right
      have := k5 h365 hb24
      subst this
      subst hb24
      norm_num
    · left
      omega

theorem yearLength_bounds (y : Nat) : 365 ≤ yearLength y ∧ yearLength y ≤ 366 := by
  unfold yearLength
  split_ifs <;> omega

theorem daysBeforeYear_add (y k : Nat) :
    daysBeforeYear y + 365 * k ≤ daysBeforeYear (y + k) := by
  induction k with
  | zero => simp
  | succ k ih =>
    have h1 := daysBeforeYear_succ (y + k)
    have h2 := (yearLength_bounds (y + k)).1
    rw [← Nat.add_assoc, h1]
    omega

/-- Two day numbers at most three days apart lie in the same year or in
neighbouring years. -/
theorem yearDay_shift (y yd y2 yd2 : Nat) (d : Int)
    (h1 : yd < yearLength y) (h2 : yd2 < yearLength y2) (hlo : -3 ≤ d) (hhi : d ≤ 3)
    (e : ((daysBeforeYear y2 + yd2 : Nat) : Int) = ((daysBeforeYear y + yd : Nat) : Int) + d) :
    (y2 = y ∧ (yd2 : Int) = yd + d) ∨
    (y2 = y + 1 ∧ (yd2 : Int) + yearLength y = yd + d) ∨
    (y2 + 1 = y ∧ (yd2 : Int) = yd + d + yearLength y2) := by
  have b1 := yearLength_bounds y
  have b2 := yearLength_bounds y2
  rcases Nat.lt_trichotomy y2 y with hlt | heq | hgt
  · right; right
    obtain ⟨k, rfl⟩ : ∃ k, y = y2 + (k + 1) := ⟨y - y2 - 1, by omega⟩
    have hk : k = 0 := by
      by_contra hk
      have := daysBeforeYear_add y2 (k + 1)
      omega
    subst hk
    have hs := daysBeforeYear_succ y2
    refine ⟨rfl, ?_⟩
    simp only [Nat.zero_add] at e h1 ⊢
    omega
  · left
    subst heq
    exact ⟨rfl, by omega⟩
  · right; left
    obtain ⟨k, rfl⟩ : ∃ k, y2 = y + (k + 1) := ⟨y2 - y - 1, by omega⟩
    have hk : k = 0 := by
      by_contra hk
      have := daysBeforeYear_add y (k + 1)
      omega
    subst hk
    have hs := daysBeforeYear_succ y
    refine ⟨rfl, ?_⟩
    simp only [Nat.zero_add] at e h2 ⊢
    omega

set_option maxRecDepth 100000 in
theorem monthDay_month :
    ∀ leap : Bool, ∀ yday : Nat, yday < 366 → yday < (if leap then 366 else 365) →
      ((monthDay leap yday).1 = 1 ↔ yday ≤ 30) ∧
      ((monthDay leap yday).1 = 12 ↔ (if leap then 335 else 334) ≤ yday) := by
  decide

/-- The ISO year of an instant is its calendar year, except in the last days
of December that belong to week 1 of the next year and in the first days of
January that belong to week 52 or 53 of the previous year; within the
calendar year, January has weeks up to 5 and December weeks from 48 on. -/
theorem ISOWeek_cases (t : Time) :
    (t.ISOWeek.1 = t.Year ∧ (t.Month = 1 → t.ISOWeek.2 ≤ 5) ∧
      (t.Month = 12 → 48 ≤ t.ISOWeek.2)) ∨
    (t.ISOWeek.1 = t.Year + 1 ∧ t.Month = 12 ∧ t.ISOWeek.2 = 1) ∨
    (t.ISOWeek.1 = t.Year - 1 ∧ t.Month = 1 ∧ 52 ≤ t.ISOWeek.2) := by
  have c1 : secondsPerDay = 86400 := rfl
  have hw : absWeekday t.abs = (t.abs / 86400 + 1) % 7 := absWeekday_eq t.abs
  obtain ⟨d, hd, hlo, hhi, hnn⟩ : ∃ d : Int,
      (if (4 - (absWeekday t.abs : Int)) = 4 then -3 else 4 - (absWeekday t.abs : Int)) = d ∧
      -3 ≤ d ∧ d ≤ 3 ∧ 0 ≤ ((t.abs / 86400 : Nat) : Int) + d := by
    refine ⟨_, rfl, ?_, ?_, ?_⟩ <;> rw [hw] <;> split_ifs <;> omega
  obtain ⟨abs2, habs2, hdiv⟩ : ∃ abs2 : Nat,
      ((t.abs : Int) + d * (secondsPerDay : Int)).toNat = abs2 ∧
      ((abs2 / secondsPerDay : Nat) : Int) = ((t.abs / secondsPerDay : Nat) : Int) + d := by
    refine ⟨_, rfl, ?_⟩
    rw [c1]
    omega
  have hiso : t.ISOWeek =
      (((absYearDay abs2).1 : Int) + absoluteZeroYear, (absYearDay abs2).2 / 7 + 1) := by
    unfold Time.ISOWeek
    simp only [hd, habs2]
  have hA := absYearDay_days t.abs
  have hAl := absYearDay_lt t.abs
  have hB := absYearDay_days abs2
  have hBl := absYearDay_lt abs2
  have hshift := yearDay_shift _ _ _ _ d hAl hBl hlo hhi (by rw [← hB.1, ← hA.1]; exact hdiv)
  have hm := monthDay_month (isLeap (((absYearDay t.abs).1 : Int) + absoluteZeroYear))
    (absYearDay t.abs).2 hA.2 hAl
  have hlen : yearLength (absYearDay t.abs).1 =
      if isLeap (((absYearDay t.abs).1 : Int) + absoluteZeroYear) then 366 else 365 := rfl
  have hb2 := yearLength_bounds (absYearDay abs2).1
  rw [hiso]
  simp only [Time.Year, Time.Month, absDate]
  generalize (monthDay (isLeap (((absYearDay t.abs).1 : Int) + absoluteZeroYear))
    (absYearDay t.abs).2).1 = m at hm ⊢
  generalize yearLength (absYearDay abs2).1 = len2 at *
  generalize yearLength (absYearDay t.abs).1 = len at *
  generalize (absYearDay abs2).1 = y2 at *
  generalize (absYearDay abs2).2 = yd2 at *
  generalize (absYearDay t.abs).1 = y at *
  generalize (absYearDay t.abs).2 = yd at *
  generalize absoluteZeroYear = z at *
  cases hleap : isLeap ((y : Int) + z) <;> simp only [hleap, if_true, if_false,
    Bool.false_eq_true] at hm hlen <;>
  rcases hshift with ⟨h1, h2⟩ | ⟨h1, h2⟩ | ⟨h1, h2⟩
  · subst h1
    refine Or.inl ⟨rfl, ?_, ?_⟩ <;> intro hm1 <;> omega
  · subst h1
    refine Or.inr (Or.inl ⟨?_, ?_, ?_⟩) <;> (try dsimp only)
    · push_cast
      omega
    · omega
    · omega
  · subst h1
    refine Or.inr (Or.inr ⟨?_, ?_, ?_⟩) <;> (try dsimp only)
    · push_cast
      omega
    · omega
    · omega
  · subst h1
    refine Or.inl ⟨rfl, ?_, ?_⟩ <;> intro hm1 <;> omega
  · subst h1
    refine Or.inr (Or.inl ⟨?_, ?_, ?_⟩) <;> (try dsimp only)
    · push_cast
      omega
    · omega
    · omega
  · subst h1
    refine Or.inr (Or.inr ⟨?_, ?_, ?_⟩) <;> (try dsimp only)
    · push_cast
      omega
    · omega
    · omega

theorem IsSame_iff (G : Frequency) (a b : Time) :
    G.IsSame a b = true ↔ requiredFieldsAgree G a b := by
  unfold Frequency.IsSame requiredFieldsAgree
  simp only [FrequencyYearly, FrequencyMonthly, FrequencyWeekly, FrequencyDaily,
    FrequencyHourly, FrequencyMinutely]
  constructor
  · intro h
    split_ifs at h with h1 h2 h3 h4 h5 h6
    simp only [Bool.and_eq_true, decide_eq_true_eq, bne_iff_ne, ne_eq, not_and,
      Decidable.not_not] at h1 h2 h3 h4 h5 h6
    exact ⟨h1, h2, h3, h4, h5, h6⟩
  · rintro ⟨h1, h2, h3, h4, h5, h6⟩
    have e1 : (decide (G.val ≥ 1) && a.Year != b.Year) = false := by
      by_cases c : G.val ≥ 1
      · simp [h1 c]
      · simp [c]
    have e2 : (decide (G.val ≥ 2) && a.Month != b.Month) = false := by
      by_cases c : G.val ≥ 2
      · simp [h2 c]
      · simp [c]
    have e3 : (decide (G.val ≥ 3) && a.ISOWeek.2 != b.ISOWeek.2) = false := by
      by_cases c : G.val ≥ 3
      · simp [h3 c]
      · simp [c]
    have e4 : (decide (G.val ≥ 4) && a.Day != b.Day) = false := by
      by_cases c : G.val ≥ 4
      · simp [h4 c]
      · simp [c]
    have e5 : (decide (G.val ≥ 5) && a.Hour != b.Hour) = false := by
      by_cases c : G.val ≥ 5
      · simp [h5 c]
      · simp [c]
    have e6 : (decide (G.val ≥ 6) && a.Minute != b.Minute) = false := by
      by_cases c : G.val ≥ 6
      · simp [h6 c]
      · simp [c]
    simp only [e1, e2, e3, e4, e5, e6]
    rfl

theorem requiredFieldsAgree_refl (G : Frequency) (a : Time) : requiredFieldsAgree G a a :=
  ⟨fun _ => rfl, fun _ => rfl, fun _ => rfl, fun _ => rfl, fun _ => rfl, fun _ => rfl⟩

theorem requiredFieldsAgree_symm {G : Frequency} {a b : Time}
    (h : requiredFieldsAgree G a b) : requiredFieldsAgree G b a :=
  ⟨fun c => (h.1 c).symm, fun c => (h.2.1 c).symm, fun c => (h.2.2.1 c).symm,
    fun c => (h.2.2.2.1 c).symm, fun c => (h.2.2.2.2.1 c).symm,
    fun c => (h.2.2.2.2.2 c).symm⟩

theorem requiredFieldsAgree_trans {G : Frequency} {a b c : Time}
    (h : requiredFieldsAgree G a b) (k : requiredFieldsAgree G b c) :
    requiredFieldsAgree G a c :=
  ⟨fun e => (h.1 e).trans (k.1 e), fun e => (h.2.1 e).trans (k.2.1 e),
    fun e => (h.2.2.1 e).trans (k.2.2.1 e), fun e => (h.2.2.2.1 e).trans (k.2.2.2.1 e),
    fun e => (h.2.2.2.2.1 e).trans (k.2.2.2.2.1 e),
    fun e => (h.2.2.2.2.2 e).trans (k.2.2.2.2.2 e)⟩

theorem requiredFieldsAgree_mono {G G' : Frequency} {a b : Time} (hle : G'.val ≤ G.val)
    (h : requiredFieldsAgree G a b) : requiredFieldsAgree G' a b :=
  ⟨fun e => h.1 (le_trans e hle), fun e => h.2.1 (le_trans e hle),
    fun e => h.2.2.1 (le_trans e hle), fun e => h.2.2.2.1 (le_trans e hle),
    fun e => h.2.2.2.2.1 (le_trans e hle), fun e => h.2.2.2.2.2 (le_trans e hle)⟩

/-- C1: for every granularity (Yearly to Minutely included), `IsSame` is true when
the two instants agree on every calendar field the granularity requires, false
as soon as one required field differs, and instants that carry the same
required fields (whatever their finer fields, seconds included) give the same
result. -/
theorem IsSame_required_fields (G : Frequency) (t1 t2 : Time) :
    (requiredFieldsAgree G t1 t2 → G.IsSame t1 t2 = true) ∧
    (¬ requiredFieldsAgree G t1 t2 → G.IsSame t1 t2 = false) ∧
    (∀ u1 u2 : Time, requiredFieldsAgree G t1 u1 → requiredFieldsAgree G t2 u2 →
      G.IsSame u1 u2 = G.IsSame t1 t2) := by
  refine ⟨(IsSame_iff G t1 t2).2, ?_, ?_⟩
  · intro h
    rw [← Bool.not_eq_true]
    exact fun e => h ((IsSame_iff G t1 t2).1 e)
  · intro u1 u2 h1 h2
    rw [Bool.eq_iff_iff, IsSame_iff, IsSame_iff]
    constructor
    · intro h
      exact requiredFieldsAgree_trans h1 (requiredFieldsAgree_trans h (requiredFieldsAgree_symm h2))
    · intro h
      exact requiredFieldsAgree_trans (requiredFieldsAgree_symm h1) (requiredFieldsAgree_trans h h2)

theorem IsSame_required_fields_witness :
    FrequencyDaily.IsSame (Date 2006 1 2 15 4 5) (Date 2006 1 2 16 5 6) = true ∧
    FrequencyDaily.IsSame (Date 2006 1 2 15 4 5) (Date 2006 1 3 15 4 5) = false :=
  ⟨(IsSame_required_fields FrequencyDaily (Date 2006 1 2 15 4 5) (Date 2006 1 2 16 5 6)).1
      (by decide),
   (IsSame_required_fields FrequencyDaily (Date 2006 1 2 15 4 5) (Date 2006 1 3 15 4 5)).2.1
      (by decide)⟩

/-- C2: with granularity None, `IsSame` is true for every pair of instants. -/
theorem IsSame_none (t1 t2 : Time) : FrequencyNone.IsSame t1 t2 = true := by
  rw [IsSame_iff]
  unfold requiredFieldsAgree
  simp [FrequencyNone, FrequencyYearly, FrequencyMonthly, FrequencyWeekly, FrequencyDaily,
    FrequencyHourly, FrequencyMinutely]

/-- C3, as stated, fails: Monday 30 January 2006 and Wednesday 1 February 2006
lie in the same ISO week (week 5 of ISO year 2006), yet `IsSame` at Weekly
granularity is false because the calendar months differ. -/
theorem IsSame_weekly_same_iso_week_counterexample :
    (Date 2006 1 30 15 4 5).ISOWeek = (Date 2006 2 1 15 4 5).ISOWeek ∧
    FrequencyWeekly.IsSame (Date 2006 1 30 15 4 5) (Date 2006 2 1 15 4 5) = false := by
  decide

/-- C3, amended: two instants within the same ISO week (same ISO year and same
ISO week number) that also share the calendar year and the calendar month are
in the same Weekly bucket. -/
theorem IsSame_weekly_same_iso_week (t1 t2 : Time)
    (hweek : t1.ISOWeek = t2.ISOWeek) (hyear : t1.Year = t2.Year)
    (hmonth : t1.Month = t2.Month) :
    FrequencyWeekly.IsSame t1 t2 = true := by
  rw [IsSame_iff]
  unfold requiredFieldsAgree
  refine ⟨fun _ => hyear, fun _ => hmonth, fun _ => by rw [hweek], ?_, ?_, ?_⟩ <;>
    intro h <;> exact absurd h (by decide)

theorem IsSame_weekly_same_iso_week_witness :
    FrequencyWeekly.IsSame (Date 2006 1 2 15 4 5) (Date 2006 1 8 16 5 6) = true :=
  IsSame_weekly_same_iso_week (Date 2006 1 2 15 4 5) (Date 2006 1 8 16 5 6)
    (by decide) (by decide) (by decide)

/-- C4: for every granularity, `IsSame` is an equivalence relation on
instants: reflexive, symmetric and transitive. -/
theorem IsSame_equivalence (G : Frequency) :
    (∀ a : Time, G.IsSame a a = true) ∧
    (∀ a b : Time, G.IsSame a b = G.IsSame b a) ∧
    (∀ a b c : Time, G.IsSame a b = true → G.IsSame b c = true → G.IsSame a c = true) := by
  refine ⟨fun a => (IsSame_iff G a a).2 (requiredFieldsAgree_refl G a), ?_, ?_⟩
  · intro a b
    rw [Bool.eq_iff_iff, IsSame_iff, IsSame_iff]
    exact ⟨requiredFieldsAgree_symm, requiredFieldsAgree_symm⟩
  · intro a b c h k
    rw [IsSame_iff] at h k ⊢
    exact requiredFieldsAgree_trans h k

theorem IsSame_equivalence_witness :
    FrequencyWeekly.IsSame (Date 2006 1 2 15 4 5) (Date 2006 1 8 16 5 6) = true :=
  (IsSame_equivalence FrequencyWeekly).2.2 (Date 2006 1 2 15 4 5) (Date 2006 1 5 0 0 0)
    (Date 2006 1 8 16 5 6) (by decide) (by decide)

/-- C5: the granularities are ordered None < Yearly < Monthly < Weekly < Daily
< Hourly < Minutely, and a match at a granularity implies a match at every
coarser one. -/
theorem IsSame_coarser (G G' : Frequency) (a b : Time) (hle : G'.val ≤ G.val)
    (h : G.IsSame a b = true) :
    G'.IsSame a b = true ∧
    (FrequencyNone.val < FrequencyYearly.val ∧ FrequencyYearly.val < FrequencyMonthly.val ∧
     FrequencyMonthly.val < FrequencyWeekly.val ∧ FrequencyWeekly.val < FrequencyDaily.val ∧
     FrequencyDaily.val < FrequencyHourly.val ∧
     FrequencyHourly.val < FrequencyMinutely.val) := by
  refine ⟨?_, by decide⟩
  rw [IsSame_iff] at h ⊢
  exact requiredFieldsAgree_mono hle h

theorem IsSame_coarser_witness :
    FrequencyMonthly.IsSame (Date 2006 1 2 15 4 5) (Date 2006 1 2 15 4 6) = true :=
  (IsSame_coarser FrequencyMinutely FrequencyMonthly (Date 2006 1 2 15 4 5)
    (Date 2006 1 2 15 4 6) (by decide) (by decide)).1

/-- C6: at Daily granularity `IsSame` is true exactly when the two instants
have the same calendar year, month and day of month; the ISO-week check adds
no constraint because instants on the same calendar date have the same ISO
week. -/
theorem IsSame_daily_iff (a b : Time) :
    (FrequencyDaily.IsSame a b = true ↔
      a.Year = b.Year ∧ a.Month = b.Month ∧ a.Day = b.Day) ∧
    (a.Year = b.Year ∧ a.Month = b.Month ∧ a.Day = b.Day → a.ISOWeek = b.ISOWeek) := by
  have hweek : a.Year = b.Year ∧ a.Month = b.Month ∧ a.Day = b.Day → a.ISOWeek = b.ISOWeek :=
    fun h => ISOWeek_congr a b (same_date_same_day a b h.1 h.2.1 h.2.2)
  refine ⟨?_, hweek⟩
  rw [IsSame_iff]
  unfold requiredFieldsAgree
  constructor
  · intro h
    exact ⟨h.1 (by decide), h.2.1 (by decide), h.2.2.2.1 (by decide)⟩
  · intro h
    refine ⟨fun _ => h.1, fun _ => h.2.1, fun _ => by rw [hweek h], fun _ => h.2.2, ?_, ?_⟩ <;>
      intro c <;> exact absurd c (by decide)

theorem IsSame_daily_iff_witness :
    FrequencyDaily.IsSame (Date 2006 1 2 15 4 5) (Date 2006 1 2 16 5 6) = true ∧
    (Date 2006 1 2 15 4 5).ISOWeek = (Date 2006 1 2 16 5 6).ISOWeek :=
  ⟨(IsSame_daily_iff (Date 2006 1 2 15 4 5) (Date 2006 1 2 16 5 6)).1.2 (by decide),
   (IsSame_daily_iff (Date 2006 1 2 15 4 5) (Date 2006 1 2 16 5 6)).2 (by decide)⟩

/-! ## Properties of the JSON encoding of a frequency -/

/-- C7: for each of the seven granularities, `MarshalJSON` succeeds with the
JSON string of its canonical lower-case token, and `UnmarshalJSON` on that
output succeeds and sets the value (whatever it was) back to the
granularity. -/
theorem marshal_unmarshal_round_trip (f : Frequency) (tok : String) (g : Frequency)
    (h : (f, tok) ∈ [(FrequencyNone, "none"), (FrequencyYearly, "yearly"),
      (FrequencyMonthly, "monthly"), (FrequencyWeekly, "weekly"), (FrequencyDaily, "daily"),
      (FrequencyHourly, "hourly"), (FrequencyMinutely, "minutely")]) :
    f.MarshalJSON = Except.ok (quoteChar :: (tok.data ++ [quoteChar])) ∧
    g.UnmarshalJSON (quoteChar :: (tok.data ++ [quoteChar])) = (f, none) := by
  simp only [List.mem_cons, Prod.mk.injEq, List.mem_singleton, List.not_mem_nil, or_false] at h
  rcases h with ⟨rfl, rfl⟩ | ⟨rfl, rfl⟩ | ⟨rfl, rfl⟩ | ⟨rfl, rfl⟩ | ⟨rfl, rfl⟩ | ⟨rfl, rfl⟩ |
    ⟨rfl, rfl⟩ <;> exact ⟨rfl, rfl⟩

theorem marshal_unmarshal_round_trip_witness :
    FrequencyDaily.MarshalJSON = Except.ok "\"daily\"".data ∧
    FrequencyNone.UnmarshalJSON "\"daily\"".data = (FrequencyDaily, none) :=
  marshal_unmarshal_round_trip FrequencyDaily "daily" FrequencyNone (by decide)

/-- C8: for every input that is a JSON string with value `s`, `UnmarshalJSON`
returns an error exactly when `s` is not one of the seven canonical tokens
(compared exactly, so case matters). -/
theorem unmarshal_error_iff (f : Frequency) (data : List Char) (s : String)
    (hs : jsonUnmarshalString data = Except.ok (some s)) :
    (f.UnmarshalJSON data).2 ≠ none ↔ s ∉ canonicalTokens := by
  unfold Frequency.UnmarshalJSON
  simp only [hs]
  unfold stringToFrequency canonicalTokens
  split_ifs <;> simp_all

theorem unmarshal_error_iff_witness :
    (FrequencyDaily.UnmarshalJSON "\"xxx\"".data).2 ≠ none ∧
    (FrequencyDaily.UnmarshalJSON "\"Daily\"".data).2 ≠ none ∧
    ¬ (FrequencyNone.UnmarshalJSON "\"daily\"".data).2 ≠ none :=
  ⟨(unmarshal_error_iff FrequencyDaily "\"xxx\"".data "xxx" rfl).2 (by decide),
   (unmarshal_error_iff FrequencyDaily "\"Daily\"".data "Daily" rfl).2 (by decide),
   fun e => (unmarshal_error_iff FrequencyNone "\"daily\"".data "daily" rfl).1 e (by decide)⟩

/-- C9: when `UnmarshalJSON` returns an error, the `Frequency` it was called
on keeps the value it had before the call. -/
theorem unmarshal_error_keeps_value (f : Frequency) (data : List Char)
    (herr : (f.UnmarshalJSON data).2 ≠ none) : (f.UnmarshalJSON data).1 = f := by
  unfold Frequency.UnmarshalJSON at herr ⊢
  cases hdec : jsonUnmarshalString data with
  | error e => rfl
  | ok decoded =>
    simp only [hdec] at herr ⊢
    generalize (match decoded with | some s => s | none => "") = str at herr ⊢
    cases hfreq : stringToFrequency str with
    | none => rfl
    | some freq =>
      simp only [hfreq] at herr
      exact absurd rfl herr

theorem unmarshal_error_keeps_value_witness :
    (FrequencyDaily.UnmarshalJSON "\"xxx\"".data).1 = FrequencyDaily :=
  unmarshal_error_keeps_value FrequencyDaily "\"xxx\"".data (by decide)

/-! ## Properties of the rotation trigger -/

/-- C10: a freshly constructed handler with a granularity other than None,
whose log file exists with modification time `T`, on its first `Handle` stats
the file and then, when the record's timestamp is in the bucket of `T`, hands
the record to the formatter without calling `Rotate`; when it is in another
bucket, calls `Rotate` (and does not hand the record to the formatter). -/
theorem Handle_seeding (opts : HandlerOptions) (w : World) (record : Record) (T : Time)
    (hG : opts.Frequency ≠ FrequencyNone)
    (hfile : w.statModTime w.trace (opts.GetFilename w) = some T) :
    (opts.Frequency.IsSame T record.Time = true →
      ((NewHandler (some opts) w).Handle record w).world.trace =
        w.trace ++ [Event.stat (opts.GetFilename w),
          Event.handle (NewHandler (some opts) w).formatter record]) ∧
    (opts.Frequency.IsSame T record.Time = false →
      ((NewHandler (some opts) w).Handle record w).world.trace =
        w.trace ++ [Event.stat (opts.GetFilename w),
          Event.rotate (NewHandler (some opts) w).logger]) := by
  constructor
  · intro hsame
    simp [Handler.Handle, NewHandler, Handler.initTime, World.Stat, World.FormatterHandle,
      World.Rotate, hG, hfile, hsame]
  · intro hdiff
    simp [Handler.Handle, NewHandler, Handler.initTime, World.Stat, World.FormatterHandle,
      World.Rotate, hG, hfile, hdiff]

theorem Handle_seeding_witness :
    ((NewHandler (some dailyOptions) (worldWithFile (Date 2006 1 2 15 4 5))).Handle
        { Time := Date 2006 1 2 16 5 6, Message := "same day" }
        (worldWithFile (Date 2006 1 2 15 4 5))).world.trace =
      [Event.stat "app.log",
        Event.handle { scopes := [] } { Time := Date 2006 1 2 16 5 6, Message := "same day" }] ∧
    ((NewHandler (some dailyOptions) (worldWithFile (Date 2006 1 2 15 4 5))).Handle
        { Time := Date 2006 1 3 15 4 5, Message := "next day" }
        (worldWithFile (Date 2006 1 2 15 4 5))).world.trace =
      [Event.stat "app.log",
        Event.rotate { Filename := "app.log", MaxSize := 0, MaxAge := 0, MaxBackups := 0,
                       LocalTime := false, Compress := false }] :=
  ⟨(Handle_seeding dailyOptions (worldWithFile (Date 2006 1 2 15 4 5))
      { Time := Date 2006 1 2 16 5 6, Message := "same day" } (Date 2006 1 2 15 4 5)
      (by decide) rfl).1 (by decide),
   (Handle_seeding dailyOptions (worldWithFile (Date 2006 1 2 15 4 5))
      { Time := Date 2006 1 3 15 4 5, Message := "next day" } (Date 2006 1 2 15 4 5)
      (by decide) rfl).2 (by decide)⟩

/-! ### The two paths of `Handle` on a seeded handler -/

theorem Handle_rotate_path (h : Handler) (record : Record) (w : World)
    (hseeded : h.once = true) (hG : h.opts.Frequency ≠ FrequencyNone)
    (hdiff : h.opts.Frequency.IsSame h.lastTime record.Time = false) :
    h.Handle record w =
      { handler := { h with lastTime := record.Time },
        world := { w with trace := w.trace ++ [Event.rotate h.logger] },
        err := w.rotateResult w.trace h.logger } := by
  simp [Handler.Handle, World.Rotate, hseeded, hG, hdiff]

theorem Handle_forward_path (h : Handler) (record : Record) (w : World)
    (hseeded : h.once = true)
    (hsame : h.opts.Frequency = FrequencyNone ∨
      h.opts.Frequency.IsSame h.lastTime record.Time = true) :
    h.Handle record w =
      { handler := h,
        world := { w with trace := w.trace ++ [Event.handle h.formatter record] },
        err := w.handleResult w.trace h.formatter record } := by
  by_cases hG : h.opts.Frequency = FrequencyNone
  · simp [Handler.Handle, World.FormatterHandle, hG]
  · have hs : h.opts.Frequency.IsSame h.lastTime record.Time = true := by
      rcases hsame with h1 | h1
      · exact absurd h1 hG
      · exact h1
    simp [Handler.Handle, World.FormatterHandle, hseeded, hG, hs]

/-- C11: on a seeded handler with a granularity other than None whose
`lastTime` is in another bucket than the record's timestamp, `Handle` sets
`lastTime` to that timestamp, calls `Rotate` exactly once and nothing else
(the record is not handed to the formatter) and returns the result of
`Rotate`. -/
theorem Handle_rotation_step (h : Handler) (record : Record) (w : World)
    (hseeded : h.once = true) (hG : h.opts.Frequency ≠ FrequencyNone)
    (hdiff : h.opts.Frequency.IsSame h.lastTime record.Time = false) :
    (h.Handle record w).handler.lastTime = record.Time ∧
    (h.Handle record w).world.trace = w.trace ++ [Event.rotate h.logger] ∧
    (h.Handle record w).err = w.rotateResult w.trace h.logger := by
  rw [Handle_rotate_path h record w hseeded hG hdiff]
  exact ⟨rfl, rfl, rfl⟩

theorem Handle_rotation_step_witness :
    ((seededDailyHandler (Date 2006 1 2 15 4 5)).Handle
        { Time := Date 2006 1 3 15 4 5, Message := "next day" }
        worldRotateFails).handler.lastTime = Date 2006 1 3 15 4 5 ∧
    ((seededDailyHandler (Date 2006 1 2 15 4 5)).Handle
        { Time := Date 2006 1 3 15 4 5, Message := "next day" }
        worldRotateFails).world.trace =
      [Event.rotate (seededDailyHandler (Date 2006 1 2 15 4 5)).logger] ∧
    ((seededDailyHandler (Date 2006 1 2 15 4 5)).Handle
        { Time := Date 2006 1 3 15 4 5, Message := "next day" }
        worldRotateFails).err = some (GoError.external "permission denied") :=
  Handle_rotation_step (seededDailyHandler (Date 2006 1 2 15 4 5))
    { Time := Date 2006 1 3 15 4 5, Message := "next day" } worldRotateFails
    rfl (by decide) (by decide)

/-- C15: with granularity None, whatever the state of the handler, `Handle`
leaves the handler as it was (no seeding, `lastTime` unchanged), makes exactly
one call to a collaborator, the formatter's `Handle` on the record (so no
stat and no `Rotate`), and returns the formatter's result. -/
theorem Handle_none (h : Handler) (record : Record) (w : World)
    (hG : h.opts.Frequency = FrequencyNone) :
    (h.Handle record w).handler = h ∧
    (h.Handle record w).world.trace = w.trace ++ [Event.handle h.formatter record] ∧
    (h.Handle record w).err = w.handleResult w.trace h.formatter record := by
  simp [Handler.Handle, World.FormatterHandle, hG]

theorem Handle_none_witness :
    ((NewHandler none (worldWithFile (Date 2006 1 2 15 4 5))).Handle
        { Time := Date 2007 1 2 15 4 5, Message := "a year later" }
        (worldWithFile (Date 2006 1 2 15 4 5))).handler =
      NewHandler none (worldWithFile (Date 2006 1 2 15 4 5)) ∧
    ((NewHandler none (worldWithFile (Date 2006 1 2 15 4 5))).Handle
        { Time := Date 2007 1 2 15 4 5, Message := "a year later" }
        (worldWithFile (Date 2006 1 2 15 4 5))).world.trace =
      [Event.handle { scopes := [] }
        { Time := Date 2007 1 2 15 4 5, Message := "a year later" }] ∧
    ((NewHandler none (worldWithFile (Date 2006 1 2 15 4 5))).Handle
        { Time := Date 2007 1 2 15 4 5, Message := "a year later" }
        (worldWithFile (Date 2006 1 2 15 4 5))).err = none :=
  Handle_none (NewHandler none (worldWithFile (Date 2006 1 2 15 4 5)))
    { Time := Date 2007 1 2 15 4 5, Message := "a year later" }
    (worldWithFile (Date 2006 1 2 15 4 5)) rfl

/-- C17: a freshly constructed handler with a granularity other than None
whose log file does not exist, on its first `Handle`, stats the file, seeds
`lastTime` with the record's own timestamp, does not call `Rotate`, hands the
record to the formatter and returns the formatter's result. -/
theorem Handle_seeding_without_file (opts : HandlerOptions) (w : World) (record : Record)
    (hG : opts.Frequency ≠ FrequencyNone)
    (hfile : w.statModTime w.trace (opts.GetFilename w) = none) :
    ((NewHandler (some opts) w).Handle record w).handler.lastTime = record.Time ∧
    ((NewHandler (some opts) w).Handle record w).world.trace =
      w.trace ++ [Event.stat (opts.GetFilename w),
        Event.handle (NewHandler (some opts) w).formatter record] ∧
    ((NewHandler (some opts) w).Handle record w).err =
      w.handleResult (w.trace ++ [Event.stat (opts.GetFilename w)])
        (NewHandler (some opts) w).formatter record := by
  have hrefl : opts.Frequency.IsSame record.Time record.Time = true :=
    (IsSame_iff _ _ _).2 (requiredFieldsAgree_refl _ _)
  simp [Handler.Handle, NewHandler, Handler.initTime, World.Stat, World.FormatterHandle,
    hG, hfile, hrefl]

theorem Handle_seeding_without_file_witness :
    ((NewHandler (some dailyOptions) worldWithoutFile).Handle
        { Time := Date 2006 1 2 15 4 5, Message := "first" }
        worldWithoutFile).handler.lastTime = Date 2006 1 2 15 4 5 ∧
    ((NewHandler (some dailyOptions) worldWithoutFile).Handle
        { Time := Date 2006 1 2 15 4 5, Message := "first" } worldWithoutFile).world.trace =
      [Event.stat "app.log",
        Event.handle { scopes := [] } { Time := Date 2006 1 2 15 4 5, Message := "first" }] ∧
    ((NewHandler (some dailyOptions) worldWithoutFile).Handle
        { Time := Date 2006 1 2 15 4 5, Message := "first" } worldWithoutFile).err = none :=
  Handle_seeding_without_file dailyOptions worldWithoutFile
    { Time := Date 2006 1 2 15 4 5, Message := "first" } (by decide) rfl

theorem newEvents_append (w : World) (w1 : World) (l : List Event)
    (h : w1.trace = w.trace ++ l) : newEvents w w1 = l := by
  simp [newEvents, h]

theorem HandleAll_forward (later : List Record) :
    ∀ (h : Handler) (w : World), h.once = true →
      (∀ r ∈ later, h.opts.Frequency = FrequencyNone ∨
        h.opts.Frequency.IsSame h.lastTime r.Time = true) →
      (h.HandleAll later w).1 = h ∧
      (h.HandleAll later w).2.1.trace = w.trace ++ later.map (Event.handle h.formatter) ∧
      (h.HandleAll later w).2.2.length = later.length := by
  induction later with
  | nil =>
    intro h w _ _
    simp [Handler.HandleAll]
  | cons r rest ih =>
    intro h w hseeded hall
    have hstep := Handle_forward_path h r w hseeded (hall r (List.mem_cons_self r rest))
    have hrest := ih h { w with trace := w.trace ++ [Event.handle h.formatter r] } hseeded
      (fun r1 hr1 => hall r1 (List.mem_cons_of_mem r hr1))
    simp only [Handler.HandleAll, hstep]
    refine ⟨hrest.1, ?_, ?_⟩
    · rw [hrest.2.1]
      simp
    · simp [hrest.2.2]

/-- What the code does on a boundary crossing: in a run of calls on a seeded
handler whose timestamps share one bucket that is not the bucket of
`lastTime`, the first call rotates and every later call hands its record to
the formatter; the first record is handed to nobody. -/
theorem HandleAll_boundary_crossing (h : Handler) (first : Record) (later : List Record)
    (w : World) (hseeded : h.once = true) (hG : h.opts.Frequency ≠ FrequencyNone)
    (hdiff : h.opts.Frequency.IsSame h.lastTime first.Time = false)
    (hsame : ∀ r ∈ later, h.opts.Frequency.IsSame first.Time r.Time = true) :
    (h.HandleAll (first :: later) w).2.1.trace =
      w.trace ++ Event.rotate h.logger :: later.map (Event.handle h.formatter) := by
  have hstep := Handle_rotate_path h first w hseeded hG hdiff
  have hrest := HandleAll_forward later { h with lastTime := first.Time }
    { w with trace := w.trace ++ [Event.rotate h.logger] } hseeded
    (fun r hr => Or.inr (hsame r hr))
  simp only [Handler.HandleAll, hstep]
  rw [hrest.2.1]
  simp

/-- C12, evaluated: a seeded daily handler whose `lastTime` is 2 January 2006
receives two records of 3 January 2006 one after the other. `Rotate` is called
once, the second record reaches the formatter, and the first record, the one
that triggered the rotation, is never handed to the formatter although both
calls return no error. -/
theorem HandleAll_loses_rotating_record :
    ((seededDailyHandler (Date 2006 1 2 15 4 5)).HandleAll
        [{ Time := Date 2006 1 3 15 4 5, Message := "first" },
         { Time := Date 2006 1 3 16 5 6, Message := "second" }]
        (worldWithFile (Date 2006 1 2 15 4 5))).2.1.trace =
      [Event.rotate (seededDailyHandler (Date 2006 1 2 15 4 5)).logger,
       Event.handle { scopes := [] } { Time := Date 2006 1 3 16 5 6, Message := "second" }] ∧
    ((seededDailyHandler (Date 2006 1 2 15 4 5)).HandleAll
        [{ Time := Date 2006 1 3 15 4 5, Message := "first" },
         { Time := Date 2006 1 3 16 5 6, Message := "second" }]
        (worldWithFile (Date 2006 1 2 15 4 5))).2.2 = [none, none] := by
  decide

/-- C13, evaluated: a seeded daily handler holds `lastTime` 2 January 2006
while the log file has meanwhile been modified on 3 January 2006. The handler
returned by `WithAttrs` (and likewise by `WithGroup`), on its first `Handle`
with a record of 3 January 2006, stats the file again, takes the file's
modification time as `lastTime` and hands the record to the formatter without
rotating, although the record is in another bucket than the `lastTime` copied
from the parent. -/
theorem clone_reseeds :
    (seededDailyHandler (Date 2006 1 2 15 4 5)).opts.Frequency.IsSame
      ((seededDailyHandler (Date 2006 1 2 15 4 5)).WithAttrs []).lastTime
      (Date 2006 1 3 15 4 5) = false ∧
    (((seededDailyHandler (Date 2006 1 2 15 4 5)).WithAttrs []).Handle
        { Time := Date 2006 1 3 15 4 5, Message := "next day" }
        (worldWithFile (Date 2006 1 3 10 0 0))).world.trace =
      [Event.stat "app.log",
       Event.handle { scopes := [FormatterScope.attrs []] }
         { Time := Date 2006 1 3 15 4 5, Message := "next day" }] ∧
    (((seededDailyHandler (Date 2006 1 2 15 4 5)).WithGroup "g").Handle
        { Time := Date 2006 1 3 15 4 5, Message := "next day" }
        (worldWithFile (Date 2006 1 3 10 0 0))).world.trace =
      [Event.stat "app.log",
       Event.handle { scopes := [FormatterScope.group "g"] }
         { Time := Date 2006 1 3 15 4 5, Message := "next day" }] ∧
    (((seededDailyHandler (Date 2006 1 2 15 4 5)).WithAttrs []).Handle
        { Time := Date 2006 1 3 15 4 5, Message := "next day" }
        (worldWithFile (Date 2006 1 3 10 0 0))).handler.lastTime = Date 2006 1 3 10 0 0 := by
  decide

/-- A first call on an unseeded handler is the seeding (one stat, `lastTime`
from the file or from the record) followed by the call on the seeded
handler. -/
theorem Handle_unseeded (h : Handler) (record : Record) (w : World)
    (hns : h.once = false) (hG : h.opts.Frequency ≠ FrequencyNone) :
    h.Handle record w =
      Handler.Handle
        { h with
          once := true,
          lastTime := (match w.statModTime w.trace (h.opts.GetFilename w) with
            | some modTime => modTime
            | none => record.Time) }
        record { w with trace := w.trace ++ [Event.stat (h.opts.GetFilename w)] } := by
  cases hstat : w.statModTime w.trace (h.opts.GetFilename w) <;>
    simp [Handler.Handle, Handler.initTime, World.Stat, hns, hG, hstat]

theorem failed_rotation_seeded (h : Handler) (record : Record) (w : World) (e : GoError)
    (pre : List Event) (later : List Record) (hseeded : h.once = true)
    (hrot : (h.Handle record w).world.trace = pre ++ [Event.rotate h.logger])
    (hfail : w.rotateResult pre h.logger = some e)
    (hlater : ∀ r ∈ later, h.opts.Frequency.IsSame record.Time r.Time = true) :
    (h.Handle record w).err = some e ∧
    (h.Handle record w).handler.lastTime = record.Time ∧
    ((h.Handle record w).handler.HandleAll later (h.Handle record w).world).2.1.trace =
      (h.Handle record w).world.trace ++ later.map (Event.handle h.formatter) ∧
    ((h.Handle record w).handler.HandleAll later (h.Handle record w).world).1 =
      (h.Handle record w).handler := by
  by_cases hfw : h.opts.Frequency = FrequencyNone ∨
      h.opts.Frequency.IsSame h.lastTime record.Time = true
  · rw [Handle_forward_path h record w hseeded hfw] at hrot
    have hinj := List.append_inj' hrot rfl
    simp at hinj
  · have hG : h.opts.Frequency ≠ FrequencyNone := fun c => hfw (Or.inl c)
    have hdiff : h.opts.Frequency.IsSame h.lastTime record.Time = false := by
      rw [← Bool.not_eq_true]
      exact fun c => hfw (Or.inr c)
    rw [Handle_rotate_path h record w hseeded hG hdiff] at hrot ⊢
    have hpre : w.trace = pre := (List.append_inj' hrot rfl).1
    subst hpre
    have hrest := HandleAll_forward later { h with lastTime := record.Time }
      { w with trace := w.trace ++ [Event.rotate h.logger] } hseeded
      (fun r hr => Or.inr (hlater r hr))
    exact ⟨hfail, rfl, hrest.2.1, hrest.1⟩

/-- C16, as stated, fails: a seeded daily handler with `lastTime` 2 January
2006 whose rotations fail handles records of 3 January 2006 (rotation step,
`Rotate` fails), of 4 January 2006 and again of 3 January 2006. The third
call is a later call whose timestamp is in the bucket of the first record,
and it calls `Rotate` instead of handing its record to the formatter, because
the second call moved `lastTime` to 4 January. -/
theorem Handle_failed_rotation_counterexample :
    FrequencyDaily.IsSame (Date 2006 1 3 15 4 5) (Date 2006 1 3 16 5 6) = true ∧
    ((seededDailyHandler (Date 2006 1 2 15 4 5)).HandleAll
        [{ Time := Date 2006 1 3 15 4 5, Message := "first" },
         { Time := Date 2006 1 4 15 4 5, Message := "second" },
         { Time := Date 2006 1 3 16 5 6, Message := "third" }]
        worldRotateFails).2.1.trace =
      [Event.rotate (seededDailyHandler (Date 2006 1 2 15 4 5)).logger,
       Event.rotate (seededDailyHandler (Date 2006 1 2 15 4 5)).logger,
       Event.rotate (seededDailyHandler (Date 2006 1 2 15 4 5)).logger] ∧
    ((seededDailyHandler (Date 2006 1 2 15 4 5)).HandleAll
        [{ Time := Date 2006 1 3 15 4 5, Message := "first" },
         { Time := Date 2006 1 4 15 4 5, Message := "second" },
         { Time := Date 2006 1 3 16 5 6, Message := "third" }]
        worldRotateFails).2.2 =
      [some (GoError.external "permission denied"),
       some (GoError.external "permission denied"),
       some (GoError.external "permission denied")] := by
  decide

/-- C16, amended: when `Handle` takes the rotation step for a record with
timestamp `t` (its calls to collaborators end with a `Rotate` made after the
calls `pre`; the handler may be seeded or on its first call) and that `Rotate`
fails, `Handle` returns that error and `lastTime` is `t`; in every run of
later calls on that handler whose timestamps are all in the bucket of `t`, no
call rotates: each hands its record to the formatter, and the handler stays
as the failed call left it. -/
theorem Handle_failed_rotation (h : Handler) (record : Record) (w : World) (e : GoError)
    (pre : List Event) (later : List Record)
    (hrot : (h.Handle record w).world.trace = pre ++ [Event.rotate h.logger])
    (hfail : w.rotateResult pre h.logger = some e)
    (hlater : ∀ r ∈ later, h.opts.Frequency.IsSame record.Time r.Time = true) :
    (h.Handle record w).err = some e ∧
    (h.Handle record w).handler.lastTime = record.Time ∧
    ((h.Handle record w).handler.HandleAll later (h.Handle record w).world).2.1.trace =
      (h.Handle record w).world.trace ++ later.map (Event.handle h.formatter) ∧
    ((h.Handle record w).handler.HandleAll later (h.Handle record w).world).1 =
      (h.Handle record w).handler := by
  cases hs : h.once with
  | true => exact failed_rotation_seeded h record w e pre later hs hrot hfail hlater
  | false =>
    by_cases hG : h.opts.Frequency = FrequencyNone
    · have htrace : (h.Handle record w).world.trace =
          w.trace ++ [Event.handle h.formatter record] := by
        simp [Handler.Handle, World.FormatterHandle, hG]
      rw [htrace] at hrot
      have hinj := List.append_inj' hrot rfl
      simp at hinj
    · rw [Handle_unseeded h record w hs hG] at hrot ⊢
      exact failed_rotation_seeded _ record _ e pre later rfl hrot hfail hlater

theorem Handle_failed_rotation_witness :
    ((NewHandler (some dailyOptions)
        (worldWithFileRotateFails (Date 2006 1 2 15 4 5))).Handle
        { Time := Date 2006 1 3 15 4 5, Message := "next day" }
        (worldWithFileRotateFails (Date 2006 1 2 15 4 5))).err =
      some (GoError.external "permission denied") ∧
    (((NewHandler (some dailyOptions)
        (worldWithFileRotateFails (Date 2006 1 2 15 4 5))).Handle
        { Time := Date 2006 1 3 15 4 5, Message := "next day" }
        (worldWithFileRotateFails (Date 2006 1 2 15 4 5))).handler.HandleAll
        [{ Time := Date 2006 1 3 16 5 6, Message := "later" }]
        ((NewHandler (some dailyOptions)
          (worldWithFileRotateFails (Date 2006 1 2 15 4 5))).Handle
          { Time := Date 2006 1 3 15 4 5, Message := "next day" }
          (worldWithFileRotateFails (Date 2006 1 2 15 4 5))).world).2.1.trace =
      [Event.stat "app.log",
       Event.rotate (seededDailyHandler (Date 2006 1 2 15 4 5)).logger,
       Event.handle { scopes := [] } { Time := Date 2006 1 3 16 5 6, Message := "later" }] ∧
    ((seededDailyHandler (Date 2006 1 2 15 4 5)).Handle
        { Time := Date 2006 1 3 15 4 5, Message := "next day" } worldRotateFails).err =
      some (GoError.external "permission denied") :=
  ⟨(Handle_failed_rotation
      (NewHandler (some dailyOptions) (worldWithFileRotateFails (Date 2006 1 2 15 4 5)))
      { Time := Date 2006 1 3 15 4 5, Message := "next day" }
      (worldWithFileRotateFails (Date 2006 1 2 15 4 5))
      (GoError.external "permission denied") [Event.stat "app.log"]
      [{ Time := Date 2006 1 3 16 5 6, Message := "later" }]
      (by decide) rfl (by decide)).1,
   (Handle_failed_rotation
      (NewHandler (some dailyOptions) (worldWithFileRotateFails (Date 2006 1 2 15 4 5)))
      { Time := Date 2006 1 3 15 4 5, Message := "next day" }
      (worldWithFileRotateFails (Date 2006 1 2 15 4 5))
      (GoError.external "permission denied") [Event.stat "app.log"]
      [{ Time := Date 2006 1 3 16 5 6, Message := "later" }]
      (by decide) rfl (by decide)).2.2.1,
   (Handle_failed_rotation (seededDailyHandler (Date 2006 1 2 15 4 5))
      { Time := Date 2006 1 3 15 4 5, Message := "next day" } worldRotateFails
      (GoError.external "permission denied") []
      [{ Time := Date 2006 1 3 16 5 6, Message := "later" }]
      (by decide) rfl (by decide)).1⟩

/-- C18: on a seeded handler `Handle` never stats the file, and it changes
`lastTime` exactly when it calls `Rotate`: then the new `lastTime` is the
record's timestamp, and on the path without rotation `lastTime` is
unchanged. -/
theorem Handle_seeded_lastTime (h : Handler) (record : Record) (w : World)
    (hseeded : h.once = true) :
    (∀ ev ∈ newEvents w (h.Handle record w).world, ev.isStat = false) ∧
    ((h.Handle record w).handler.lastTime ≠ h.lastTime ↔
      ∃ ev ∈ newEvents w (h.Handle record w).world, ev.isRotate = true) ∧
    ((∃ ev ∈ newEvents w (h.Handle record w).world, ev.isRotate = true) →
      (h.Handle record w).handler.lastTime = record.Time) ∧
    ((∀ ev ∈ newEvents w (h.Handle record w).world, ev.isRotate = false) →
      (h.Handle record w).handler.lastTime = h.lastTime) := by
  by_cases hfw : h.opts.Frequency = FrequencyNone ∨
      h.opts.Frequency.IsSame h.lastTime record.Time = true
  · rw [Handle_forward_path h record w hseeded hfw]
    rw [newEvents_append w _ [Event.handle h.formatter record] rfl]
    simp [Event.isStat, Event.isRotate]
  · have hG : h.opts.Frequency ≠ FrequencyNone := fun c => hfw (Or.inl c)
    have hdiff : h.opts.Frequency.IsSame h.lastTime record.Time = false := by
      rw [← Bool.not_eq_true]
      exact fun c => hfw (Or.inr c)
    have hne : record.Time ≠ h.lastTime := by
      intro c
      rw [c, (IsSame_iff _ _ _).2 (requiredFieldsAgree_refl _ _)] at hdiff
      exact Bool.noConfusion hdiff
    rw [Handle_rotate_path h record w hseeded hG hdiff]
    rw [newEvents_append w _ [Event.rotate h.logger] rfl]
    simp [Event.isStat, Event.isRotate, hne]

theorem Handle_seeded_lastTime_witness :
    ((seededDailyHandler (Date 2006 1 2 15 4 5)).Handle
        { Time := Date 2006 1 3 15 4 5, Message := "next day" }
        (worldWithFile (Date 2006 1 2 15 4 5))).handler.lastTime = Date 2006 1 3 15 4 5 ∧
    ((seededDailyHandler (Date 2006 1 2 15 4 5)).Handle
        { Time := Date 2006 1 2 16 5 6, Message := "same day" }
        (worldWithFile (Date 2006 1 2 15 4 5))).handler.lastTime = Date 2006 1 2 15 4 5 :=
  ⟨(Handle_seeded_lastTime (seededDailyHandler (Date 2006 1 2 15 4 5))
      { Time := Date 2006 1 3 15 4 5, Message := "next day" }
      (worldWithFile (Date 2006 1 2 15 4 5)) rfl).2.2.1 (by decide),
   (Handle_seeded_lastTime (seededDailyHandler (Date 2006 1 2 15 4 5))
      { Time := Date 2006 1 2 16 5 6, Message := "same day" }
      (worldWithFile (Date 2006 1 2 15 4 5)) rfl).2.2.2 (by decide)⟩

/-- C19: `WithAttrs` and `WithGroup` are functions of the handler alone (they
take no world, so they neither stat the file nor rotate, and the handler they
are called on is not modified); the handler they return has the same backend
and the same options as `h`, the `lastTime` of `h`, and as formatter the
result of the formatter's `WithAttrs`, respectively `WithGroup`. -/
theorem With_keeps_rotation_state (h : Handler) (attr : List Attr) (name : String) :
    ((h.WithAttrs attr).logger = h.logger ∧ (h.WithAttrs attr).opts = h.opts ∧
      (h.WithAttrs attr).opts.Frequency = h.opts.Frequency ∧
      (h.WithAttrs attr).lastTime = h.lastTime ∧
      (h.WithAttrs attr).formatter = h.formatter.WithAttrs attr) ∧
    ((h.WithGroup name).logger = h.logger ∧ (h.WithGroup name).opts = h.opts ∧
      (h.WithGroup name).opts.Frequency = h.opts.Frequency ∧
      (h.WithGroup name).lastTime = h.lastTime ∧
      (h.WithGroup name).formatter = h.formatter.WithGroup name) :=
  ⟨⟨rfl, rfl, rfl, rfl, rfl⟩, ⟨rfl, rfl, rfl, rfl, rfl⟩⟩

/-! ## Weekly matches and the ISO year -/

/-- C20: although `IsSame` compares only the ISO week number, a match at
Weekly granularity is a match of ISO weeks: the two instants have the same
ISO year and the same ISO week number. -/
theorem IsSame_weekly_iso_year (a b : Time) (h : FrequencyWeekly.IsSame a b = true) :
    a.ISOWeek.1 = b.ISOWeek.1 ∧ a.ISOWeek.2 = b.ISOWeek.2 := by
  rw [IsSame_iff] at h
  have hy : a.Year = b.Year := h.1 (by decide)
  have hm : a.Month = b.Month := h.2.1 (by decide)
  have hw : a.ISOWeek.2 = b.ISOWeek.2 := h.2.2.1 (by decide)
  refine ⟨?_, hw⟩
  rcases ISOWeek_cases a with ⟨a1, a2, a3⟩ | ⟨a1, a2, a3⟩ | ⟨a1, a2, a3⟩ <;>
    rcases ISOWeek_cases b with ⟨b1, b2, b3⟩ | ⟨b1, b2, b3⟩ | ⟨b1, b2, b3⟩ <;>
    omega

theorem IsSame_weekly_iso_year_witness :
    (Date 2008 12 29 15 4 5).ISOWeek.1 = (Date 2008 12 31 16 5 6).ISOWeek.1 ∧
    (Date 2008 12 29 15 4 5).ISOWeek.2 = (Date 2008 12 31 16 5 6).ISOWeek.2 :=
  IsSame_weekly_iso_year (Date 2008 12 29 15 4 5) (Date 2008 12 31 16 5 6) (by decide)

end Slogrotate
